import Mathlib

/-!
# Karma static-rendering configuration (`karma.static.conf.js`)

The module exports one function, `function(config) { config.set({...}) }`.
This development embeds that function over a small model of the JavaScript
values and object operations it uses, and proves the properties of the record
it hands to `config.set`.

Modelling choices:

* JavaScript values are a data type `JSValue` with value semantics; the object
  literal is built property by property, in source order, as the language does.
* The argument is an object (a call with `undefined` or `null` throws at the
  member read, before anything else happens, and is not modelled).
* The object bound to `config` is arbitrary: its private state has any type
  `σ`, reading a member may run an accessor (change the state, throw) and a
  callable member may change the state, return any value or throw.
* The function body runs in `Exec`, which threads the state of the object,
  records every operation the body itself performs on `config` in a trace, and
  propagates exceptions.
-/

set_option autoImplicit false

namespace KarmaStaticConf

/-! ## JavaScript values -/

/-- JavaScript values that occur in the configuration module. Objects keep
their own properties in insertion order, with pairwise distinct keys. -/
inductive JSValue where
  | undefined
  | str (s : String)
  | arr (items : List JSValue)
  | obj (props : List (String × JSValue))

/-- CreateDataProperty on a property list: an existing key keeps its position
and takes the new value, a new key is appended. -/
def defineProp (props : List (String × JSValue)) (key : String) (v : JSValue) :
    List (String × JSValue) :=
  match props with
  | [] => [(key, v)]
  | (k, w) :: rest =>
    if k = key then (k, v) :: rest else (k, w) :: defineProp rest key v

/-- Evaluation of an object literal `{ k1: v1, k2: v2, ... }`: the properties
are defined one after the other, in source order, on an empty object. A
trailing comma after the last property adds nothing. -/
def objectLiteral (props : List (String × JSValue)) : JSValue :=
  JSValue.obj (props.foldl (fun acc p => defineProp acc p.1 p.2) [])

/-- Evaluation of an array literal `[v1, v2, ...]` without holes. -/
def arrayLiteral (items : List JSValue) : JSValue :=
  JSValue.arr items

/-- Own property lookup: `r.key` for an object `r`, `none` when the value is
not an object or has no such own property. -/
def field (key : String) : JSValue → Option JSValue
  | JSValue.obj props => (props.find? (fun p => decide (p.1 = key))).map Prod.snd
  | _ => none

/-- Own property names of an object, in insertion order (`Object.keys`). -/
def ownKeys : JSValue → Option (List String)
  | JSValue.obj props => some (props.map Prod.fst)
  | _ => none

/-- Number of own properties of an object. -/
def fieldCount (r : JSValue) : Option Nat :=
  (ownKeys r).map List.length

/-- Elements of an array value, `none` for any other value. -/
def elements : JSValue → Option (List JSValue)
  | JSValue.arr items => some items
  | _ => none

/-! ## Calls, completions and the object bound to `config` -/

/-- How an evaluation completes: normally with a value, or abruptly with a
thrown value. -/
inductive Completion (α : Type) where
  | returned (v : α)
  | threw (e : JSValue)

/-- The value thrown when a non-callable value is called. -/
def typeError : JSValue :=
  JSValue.obj [("name", JSValue.str "TypeError")]

/-- What reading a member of the config object yields: a function, which
receives the argument list and acts on the state of the object it is called
on, or a value that cannot be called. -/
inductive Member (σ : Type) where
  | callable (f : List JSValue → σ → Completion JSValue × σ)
  | plain (v : JSValue)

/-- An arbitrary object passed as `config`: some state and the behaviour of a
member read in that state (a data property leaves the state unchanged, an
accessor may change it or throw). -/
structure Config (σ : Type) where
  state : σ
  read : String → σ → Completion (Member σ) × σ

/-- One operation performed by the function body on the object bound to
`config`. -/
inductive Access where
  | get (member : String)
  | put (member : String) (value : JSValue)
  | call (member : String) (args : List JSValue)

/-- State threaded through the function body: the state of the config object
and the operations performed on it so far, oldest first. -/
structure World (σ : Type) where
  state : σ
  trace : List Access

/-- Computations of the function body. -/
def Exec (σ α : Type) : Type :=
  World σ → Completion α × World σ

/-- Normal completion with a value, no effect. -/
def Exec.pure {σ α : Type} (a : α) : Exec σ α :=
  fun w => (Completion.returned a, w)

/-- Sequencing: an abrupt completion of the first part skips the rest. -/
def Exec.bind {σ α β : Type} (m : Exec σ α) (k : α → Exec σ β) : Exec σ β :=
  fun w =>
    match m w with
    | (Completion.returned a, w1) => k a w1
    | (Completion.threw e, w1) => (Completion.threw e, w1)

instance instMonadExec (σ : Type) : Monad (Exec σ) where
  pure := Exec.pure
  bind := Exec.bind

/-- Member read `config.name`: recorded in the trace, then performed by the
object. -/
def getMember {σ : Type} (config : Config σ) (name : String) : Exec σ (Member σ) :=
  fun w =>
    match config.read name w.state with
    | (c, s1) => (c, World.mk s1 (w.trace ++ [Access.get name]))

/-- Call of the value `m` read from member `name`, with the config object as
receiver. The arguments are already evaluated; a value that is not callable
throws a TypeError and no call takes place. -/
def callMember {σ : Type} (name : String) (m : Member σ) (args : List JSValue) :
    Exec σ JSValue :=
  fun w =>
    match m with
    | Member.plain _ => (Completion.threw typeError, w)
    | Member.callable f =>
      match f args w.state with
      | (c, s1) => (c, World.mk s1 (w.trace ++ [Access.call name args]))

/-! ## The module -/

/-- The object literal of lines 5-17: three properties, each an array of
string literals. -/
def configRecord : JSValue :=
  objectLiteral
    [ ("frameworks", arrayLiteral [JSValue.str "jasmine"]),
      ("files", arrayLiteral
        [ JSValue.str "inst/www/htmlwidgets.js",
          JSValue.str "test/src/mock_widget.js",
          JSValue.str "test/spec/staticrender_spec.js" ]),
      ("browsers", arrayLiteral [JSValue.str "ChromeHeadless"]) ]

/-- The exported function `function(config) { config.set({...}) }`: read
`config.set`, evaluate the argument, call, discard the result, and fall off
the end of the body. -/
def exports {σ : Type} (config : Config σ) : Exec σ JSValue := do
  let set ← getMember config "set"
  let _ ← callMember "set" set [configRecord]
  return JSValue.undefined

/-- One call `module.exports(config)` from the current state of `config`,
with an empty trace. -/
def run {σ : Type} (config : Config σ) : Completion JSValue × World σ :=
  exports config (World.mk config.state [])

/-- The config object as the call left it. -/
def Config.after {σ : Type} (config : Config σ) (w : World σ) : Config σ :=
  Config.mk w.state config.read

/-- Argument lists of the calls of member `set` in a trace, oldest first. -/
def setCalls : List Access → List (List JSValue)
  | [] => []
  | Access.call name args :: rest =>
    if name = "set" then args :: setCalls rest else setCalls rest
  | _ :: rest => setCalls rest

/-- Every value passed to `config.set` during one call of the exported
function. -/
def passedToSet {σ : Type} (config : Config σ) : List JSValue :=
  (setCalls (run config).2.trace).flatten

/-- The execution targets a record names: the elements of its `browsers`
array, the empty list when there is no such array. -/
def browserTargets (r : JSValue) : List JSValue :=
  ((field "browsers" r).bind elements).getD []

/-! ## Sample config objects -/

/-- A runner-like config object: its state is its list of settings, `set`
copies every own property of its first argument onto it and returns
undefined, any other member reads as the setting of that name. -/
def runnerConfig : Config (List (String × JSValue)) :=
  Config.mk [] (fun name s =>
    if name = "set" then
      (Completion.returned (Member.callable (fun args st =>
        match args with
        | JSValue.obj props :: _ =>
          (Completion.returned JSValue.undefined,
            props.foldl (fun acc p => defineProp acc p.1 p.2) st)
        | _ => (Completion.returned JSValue.undefined, st))), s)
    else
      (Completion.returned (Member.plain ((field name (JSValue.obj s)).getD JSValue.undefined)), s))

/-- A config object whose `set` is a function that throws. -/
def throwingConfig : Config Unit :=
  Config.mk () (fun _ s =>
    (Completion.returned (Member.callable (fun _ st =>
      (Completion.threw (JSValue.str "rejected"), st))), s))

/-- A config object whose `set` holds a string, not a function. -/
def brokenConfig : Config Unit :=
  Config.mk () (fun _ s => (Completion.returned (Member.plain (JSValue.str "set")), s))

/-! ## The run of the function, case by case -/

/-- When the read of `config.set` yields a function, the body performs the
read and one call with the record as only argument, and completes as the
callee does, except that a returned value is replaced by undefined. -/
theorem run_callable {σ : Type} (config : Config σ)
    (f : List JSValue → σ → Completion JSValue × σ) (s1 : σ)
    (h : config.read "set" config.state = (Completion.returned (Member.callable f), s1)) :
    run config =
      ((match (f [configRecord] s1).1 with
        | Completion.returned _ => Completion.returned JSValue.undefined
        | Completion.threw e => Completion.threw e),
       World.mk (f [configRecord] s1).2
        [Access.get "set", Access.call "set" [configRecord]]) := by
  simp only [run, exports, bind, pure, Exec.bind, Exec.pure, getMember, callMember, h,
    List.nil_append, List.cons_append]
  rcases hf : f [configRecord] s1 with ⟨c, s2⟩
  cases c <;> simp [hf]

/-- When `config.set` reads as a value that is not a function, the body
performs the read only and throws a TypeError. -/
theorem run_plain {σ : Type} (config : Config σ) (v : JSValue) (s1 : σ)
    (h : config.read "set" config.state = (Completion.returned (Member.plain v), s1)) :
    run config = (Completion.threw typeError, World.mk s1 [Access.get "set"]) := by
  simp [run, exports, bind, Exec.bind, getMember, callMember, h]

/-- When the read of `config.set` itself throws, the body performs the read
only and the exception propagates. -/
theorem run_read_threw {σ : Type} (config : Config σ) (e : JSValue) (s1 : σ)
    (h : config.read "set" config.state = (Completion.threw e, s1)) :
    run config = (Completion.threw e, World.mk s1 [Access.get "set"]) := by
  simp [run, exports, bind, Exec.bind, getMember, h]

/-- With a callable `set`, the values passed to it are the record, once. -/
theorem passedToSet_callable {σ : Type} (config : Config σ)
    (f : List JSValue → σ → Completion JSValue × σ) (s1 : σ)
    (h : config.read "set" config.state = (Completion.returned (Member.callable f), s1)) :
    passedToSet config = [configRecord] := by
  simp [passedToSet, run_callable config f s1 h, setCalls]

/-- Whatever the config object, nothing but the record is passed to `set`. -/
theorem passedToSet_eq {σ : Type} (config : Config σ) (r : JSValue)
    (hr : r ∈ passedToSet config) : r = configRecord := by
  rcases h : config.read "set" config.state with ⟨c, s1⟩
  cases c with
  | returned m =>
    cases m with
    | callable f =>
      rw [passedToSet_callable config f s1 h] at hr
      simpa using hr
    | plain v =>
      simp [passedToSet, run_plain config v s1 h, setCalls] at hr
  | threw e =>
    simp [passedToSet, run_read_threw config e s1 h, setCalls] at hr

/-- The runner-like sample object has a callable `set`. -/
theorem runnerConfig_passed : passedToSet runnerConfig = [configRecord] :=
  passedToSet_callable runnerConfig _ _ rfl

/-- The same object called a second time, now holding the settings of the
first call, is passed the record again. -/
theorem runnerConfig_again_passed :
    passedToSet (runnerConfig.after (run runnerConfig).2) = [configRecord] :=
  passedToSet_callable _ _ _ rfl

/-! ## The record passed to `config.set` -/

/-- C1: for every config object, a record the exported function passes to
`config.set` has a `files` list equal to exactly the three paths
`inst/www/htmlwidgets.js`, `test/src/mock_widget.js`,
`test/spec/staticrender_spec.js`, in this order. -/
theorem exports_files_exact {σ : Type} (config : Config σ) (r : JSValue)
    (hr : r ∈ passedToSet config) :
    field "files" r = some (JSValue.arr
      [ JSValue.str "inst/www/htmlwidgets.js",
        JSValue.str "test/src/mock_widget.js",
        JSValue.str "test/spec/staticrender_spec.js" ]) := by
  rw [passedToSet_eq config r hr]
  rfl

/-- Instance of C1 at the runner-like sample object. -/
theorem exports_files_exact_witness :
    configRecord ∈ passedToSet runnerConfig ∧
    field "files" configRecord = some (JSValue.arr
      [ JSValue.str "inst/www/htmlwidgets.js",
        JSValue.str "test/src/mock_widget.js",
        JSValue.str "test/spec/staticrender_spec.js" ]) :=
  ⟨by rw [runnerConfig_passed]; exact List.mem_singleton.2 rfl,
   exports_files_exact runnerConfig configRecord
    (by rw [runnerConfig_passed]; exact List.mem_singleton.2 rfl)⟩

/-- C2: a record passed to `config.set` is an object whose own properties are
exactly `frameworks`, `files` and `browsers`, and no others. -/
theorem exports_record_keys {σ : Type} (config : Config σ) (r : JSValue)
    (hr : r ∈ passedToSet config) :
    ownKeys r = some ["frameworks", "files", "browsers"] := by
  rw [passedToSet_eq config r hr]
  rfl

/-- Instance of C2 at the runner-like sample object. -/
theorem exports_record_keys_witness :
    configRecord ∈ passedToSet runnerConfig ∧
    ownKeys configRecord = some ["frameworks", "files", "browsers"] :=
  ⟨by rw [runnerConfig_passed]; exact List.mem_singleton.2 rfl,
   exports_record_keys runnerConfig configRecord
    (by rw [runnerConfig_passed]; exact List.mem_singleton.2 rfl)⟩

/-- C3, as stated, fails: the record passed to the `set` of the runner-like
sample object does not have four fields. -/
theorem exports_record_four_fields_refuted :
    ¬ (∀ r, r ∈ passedToSet runnerConfig → fieldCount r = some 4) := by
  intro h
  have h4 : fieldCount configRecord = some 4 :=
    h configRecord (by rw [runnerConfig_passed]; exact List.mem_singleton.2 rfl)
  exact absurd h4 (by decide)

/-- C3, amended: a record passed to `config.set` is a record with three
fields. -/
theorem exports_record_three_fields {σ : Type} (config : Config σ) (r : JSValue)
    (hr : r ∈ passedToSet config) :
    fieldCount r = some 3 := by
  rw [passedToSet_eq config r hr]
  rfl

/-- Instance of the amended C3 at the runner-like sample object. -/
theorem exports_record_three_fields_witness :
    configRecord ∈ passedToSet runnerConfig ∧ fieldCount configRecord = some 3 :=
  ⟨by rw [runnerConfig_passed]; exact List.mem_singleton.2 rfl,
   exports_record_three_fields runnerConfig configRecord
    (by rw [runnerConfig_passed]; exact List.mem_singleton.2 rfl)⟩

/-- C4: a record passed to `config.set` has a `browsers` field that is the
one-element array holding `ChromeHeadless`; that identifier is its only
execution target, and no other browser identifier is among its targets. -/
theorem exports_browsers_headless_only {σ : Type} (config : Config σ) (r : JSValue)
    (hr : r ∈ passedToSet config) :
    field "browsers" r = some (JSValue.arr [JSValue.str "ChromeHeadless"]) ∧
    browserTargets r = [JSValue.str "ChromeHeadless"] ∧
    (browserTargets r).length = 1 ∧
    ∀ name : String, name ≠ "ChromeHeadless" → JSValue.str name ∉ browserTargets r := by
  rw [passedToSet_eq config r hr]
  have ht : browserTargets configRecord = [JSValue.str "ChromeHeadless"] := rfl
  refine ⟨rfl, ht, by rw [ht]; rfl, ?_⟩
  intro name hname hmem
  rw [ht] at hmem
  simp at hmem
  exact hname hmem

/-- Instance of C4 at the runner-like sample object: the identifier `Chrome`
of the browser with a window is not a target. -/
theorem exports_browsers_headless_only_witness :
    configRecord ∈ passedToSet runnerConfig ∧
    browserTargets configRecord = [JSValue.str "ChromeHeadless"] ∧
    JSValue.str "Chrome" ∉ browserTargets configRecord :=
  ⟨by rw [runnerConfig_passed]; exact List.mem_singleton.2 rfl,
   (exports_browsers_headless_only runnerConfig configRecord
    (by rw [runnerConfig_passed]; exact List.mem_singleton.2 rfl)).2.1,
   (exports_browsers_headless_only runnerConfig configRecord
    (by rw [runnerConfig_passed]; exact List.mem_singleton.2 rfl)).2.2.2 "Chrome" (by decide)⟩

/-- C5: a record passed to `config.set` has a `frameworks` field equal to
exactly the one-element array holding the string `jasmine`. -/
theorem exports_frameworks_jasmine {σ : Type} (config : Config σ) (r : JSValue)
    (hr : r ∈ passedToSet config) :
    field "frameworks" r = some (JSValue.arr [JSValue.str "jasmine"]) := by
  rw [passedToSet_eq config r hr]
  rfl

/-- Instance of C5 at the runner-like sample object. -/
theorem exports_frameworks_jasmine_witness :
    configRecord ∈ passedToSet runnerConfig ∧
    field "frameworks" configRecord = some (JSValue.arr [JSValue.str "jasmine"]) :=
  ⟨by rw [runnerConfig_passed]; exact List.mem_singleton.2 rfl,
   exports_frameworks_jasmine runnerConfig configRecord
    (by rw [runnerConfig_passed]; exact List.mem_singleton.2 rfl)⟩

/-- C6: the configuration is static. For any two config objects, of any kind
and in any state, a record the exported function passes to the `set` of the
first equals a record it passes to the `set` of the second. -/
theorem exports_record_static {σ1 σ2 : Type} (c1 : Config σ1) (c2 : Config σ2)
    (r1 r2 : JSValue) (h1 : r1 ∈ passedToSet c1) (h2 : r2 ∈ passedToSet c2) :
    r1 = r2 := by
  rw [passedToSet_eq c1 r1 h1, passedToSet_eq c2 r2 h2]

/-- Instance of C6: the first call on the runner-like sample object and a
second call on the same object, which then holds the settings of the first. -/
theorem exports_record_static_witness :
    configRecord ∈ passedToSet runnerConfig ∧
    configRecord ∈ passedToSet (runnerConfig.after (run runnerConfig).2) ∧
    (runnerConfig.after (run runnerConfig).2).state ≠ runnerConfig.state ∧
    configRecord = configRecord :=
  ⟨by rw [runnerConfig_passed]; exact List.mem_singleton.2 rfl,
   by rw [runnerConfig_again_passed]; exact List.mem_singleton.2 rfl,
   by intro h; exact absurd (congrArg List.length h) (by decide),
   exports_record_static runnerConfig (runnerConfig.after (run runnerConfig).2)
    configRecord configRecord
    (by rw [runnerConfig_passed]; exact List.mem_singleton.2 rfl)
    (by rw [runnerConfig_again_passed]; exact List.mem_singleton.2 rfl)⟩

/-- C7: the file list of a record passed to `config.set` is non-empty. -/
theorem exports_files_nonempty {σ : Type} (config : Config σ) (r : JSValue)
    (hr : r ∈ passedToSet config) :
    ∃ items : List JSValue, field "files" r = some (JSValue.arr items) ∧ items ≠ [] := by
  rw [passedToSet_eq config r hr]
  exact ⟨_, rfl, List.cons_ne_nil _ _⟩

/-- Instance of C7 at the runner-like sample object. -/
theorem exports_files_nonempty_witness :
    configRecord ∈ passedToSet runnerConfig ∧
    ∃ items : List JSValue,
      field "files" configRecord = some (JSValue.arr items) ∧ items ≠ [] :=
  ⟨by rw [runnerConfig_passed]; exact List.mem_singleton.2 rfl,
   exports_files_nonempty runnerConfig configRecord
    (by rw [runnerConfig_passed]; exact List.mem_singleton.2 rfl)⟩

/-! ## Effect of one call on the config object -/

/-- C8, as stated, fails: the `set` of `throwingConfig` is callable, and the
exported function called on it does not return undefined but completes with
the exception thrown by `set`. -/
theorem exports_throwing_set_refuted :
    (∃ f s1, throwingConfig.read "set" throwingConfig.state =
      (Completion.returned (Member.callable f), s1)) ∧
    (run throwingConfig).2.trace = [Access.get "set", Access.call "set" [configRecord]] ∧
    (run throwingConfig).1 = Completion.threw (JSValue.str "rejected") ∧
    (run throwingConfig).1 ≠ Completion.returned JSValue.undefined := by
  refine ⟨⟨_, _, rfl⟩, rfl, rfl, ?_⟩
  intro h
  have h2 : (run throwingConfig).1 = Completion.threw (JSValue.str "rejected") := rfl
  rw [h2] at h
  cases h

/-- C8, amended: for every config object whose `set` reads as a function `f`,
one call of the exported function performs on `config` the read of `set` and
one call of `set` with the record as its single argument, and nothing else;
it leaves the object in the state `f` left it; when `f` returns, whatever the
value, the function returns undefined, and when `f` throws, the exception
propagates. -/
theorem exports_calls_set_once {σ : Type} (config : Config σ)
    (f : List JSValue → σ → Completion JSValue × σ) (s1 : σ)
    (h : config.read "set" config.state = (Completion.returned (Member.callable f), s1)) :
    (run config).2.trace = [Access.get "set", Access.call "set" [configRecord]] ∧
    setCalls (run config).2.trace = [[configRecord]] ∧
    (run config).2.state = (f [configRecord] s1).2 ∧
    (∀ v, (f [configRecord] s1).1 = Completion.returned v →
      (run config).1 = Completion.returned JSValue.undefined) ∧
    (∀ e, (f [configRecord] s1).1 = Completion.threw e →
      (run config).1 = Completion.threw e) := by
  rw [run_callable config f s1 h]
  refine ⟨rfl, by simp [setCalls], rfl, ?_, ?_⟩
  · intro v hv
    simp [hv]
  · intro e he
    simp [he]

/-- Instance of the amended C8 at the runner-like sample object, whose `set`
returns: one read, one call, undefined returned, the three settings stored. -/
theorem exports_calls_set_once_witness :
    (∃ f s1, runnerConfig.read "set" runnerConfig.state =
      (Completion.returned (Member.callable f), s1)) ∧
    (run runnerConfig).2.trace = [Access.get "set", Access.call "set" [configRecord]] ∧
    (run runnerConfig).1 = Completion.returned JSValue.undefined ∧
    ownKeys (JSValue.obj (run runnerConfig).2.state) =
      some ["frameworks", "files", "browsers"] :=
  ⟨⟨_, _, rfl⟩,
   (exports_calls_set_once runnerConfig _ _ rfl).1,
   (exports_calls_set_once runnerConfig _ _ rfl).2.2.2.1 JSValue.undefined rfl,
   rfl⟩

end KarmaStaticConf
